import Mathlib

/-!
Verification of the invoice-extraction pipeline (`src/main.py`).

Strings manipulated by the Python code are modelled as `List Char`.
External collaborators (PaddleOCR, the Groq LLM client, PyMuPDF page
objects) are modelled as oracles attached to the data they produce;
the Python standard library pieces the code relies on (`str.strip`,
`str.lower`, `re.sub` on the two concrete patterns used, `json.loads`,
and the semantics of `in` / item assignment on Python values) are
modelled faithfully below, restricted to ASCII whitespace/letters.
-/

namespace Invoice

abbrev LC := List Char

/-- Whitespace characters of Python `str.strip()` and of the regex
class `\s` (ASCII range). -/
def isPyWs (c : Char) : Bool :=
  c == ' ' || c == '\t' || c == '\n' || c == '\r' || c == '\x0b' || c == '\x0c'

/-- Python `str.strip()`: drop whitespace from both ends. -/
def pyStrip (s : LC) : LC :=
  ((s.dropWhile isPyWs).reverse.dropWhile isPyWs).reverse

/-- The three-backtick code-fence marker. -/
def fence3 : LC := "```".toList

/-- The optional language tag accepted after an opening fence. -/
def jsonTag : LC := "json".toList

/-- One pass of `re.sub(r'^```(?:json)?\s*', '', content, flags=re.MULTILINE)`:
scan left to right; at every line start, a fence plus optional `json` tag plus
greedy whitespace run is deleted, and scanning resumes after the deleted span.
The boolean argument records whether the current position is a line start of
the original string. -/
def sub1Go : Nat → Bool → LC → LC
  | 0, _, s => s
  | _ + 1, _, [] => []
  | f + 1, als, c :: cs =>
    if als && ((c :: cs).take 3 == fence3) then
      let r1 := (c :: cs).drop 3
      let r2 := if r1.take 4 == jsonTag then r1.drop 4 else r1
      let ws := r2.takeWhile isPyWs
      sub1Go f (ws.getLast? == some '\n') (r2.dropWhile isPyWs)
    else c :: sub1Go f (c == '\n') cs

/-- Test for a fence at offset `k`. -/
def fenceAt (s : LC) (k : Nat) : Bool := (s.drop k).take 3 == fence3

/-- Test whether offset `k` is an end of line (end of string, or a newline
follows), the `$` of a MULTILINE pattern. -/
def eolMark (s : LC) (k : Nat) : Bool :=
  match s.drop k with
  | [] => true
  | c :: _ => c == '\n'

/-- Greedy search for a match of `\s*```$` starting at the head of `s`:
`k` counts down from the length of the leading whitespace run, so the first
success is the longest whitespace prefix the pattern can absorb.  Returns
the total length of the match. -/
def sub2Find (s : LC) : Nat → Option Nat
  | 0 => if fenceAt s 0 && eolMark s 3 then some 3 else none
  | k + 1 =>
    if fenceAt s (k + 1) && eolMark s (k + 4) then some (k + 4) else sub2Find s k

/-- One pass of `re.sub(r'\s*```$', '', content, flags=re.MULTILINE)`:
leftmost match wins, matches are removed, scanning resumes after a match. -/
def sub2Go : Nat → LC → LC
  | 0, s => s
  | _ + 1, [] => []
  | f + 1, c :: cs =>
    match sub2Find (c :: cs) ((c :: cs).takeWhile isPyWs).length with
    | some k => sub2Go f ((c :: cs).drop k)
    | none => c :: sub2Go f cs

/-- The Response Sanitizer of `extract_invoice_json` (`src/main.py`
lines 133-139): strip the raw reply, delete leading code-fence markers,
delete trailing code-fence markers, strip again, and remove every stray
backtick character. -/
def sanitize (raw : LC) : LC :=
  let c0 := pyStrip raw
  let c1 := sub1Go (c0.length + 1) true c0
  let c2 := sub2Go (c1.length + 1) c1
  (pyStrip c2).filter (fun ch => ch != '\x60')

/-- Values produced by `json.loads`.  Number lexemes are kept verbatim;
none of the pipeline's logic inspects numeric magnitude. -/
inductive Json where
  | null : Json
  | bool (b : Bool) : Json
  | num (lexeme : LC) : Json
  | str (s : LC) : Json
  | arr (elems : List Json) : Json
  | obj (kvs : List (LC × Json)) : Json

/-- JSON structural whitespace. -/
def jsonSkipWs : LC → LC
  | [] => []
  | c :: cs =>
    if c == ' ' || c == '\t' || c == '\n' || c == '\r' then jsonSkipWs cs
    else c :: cs

/-- Value of one hexadecimal digit. -/
def hexVal (c : Char) : Option Nat :=
  if '0' ≤ c ∧ c ≤ '9' then some (c.toNat - 48)
  else if 'a' ≤ c ∧ c ≤ 'f' then some (c.toNat - 87)
  else if 'A' ≤ c ∧ c ≤ 'F' then some (c.toNat - 55)
  else none

/-- Body of a JSON string literal, after the opening quote; returns the
decoded characters and the remainder after the closing quote. -/
def parseStrGo : Nat → LC → Option (LC × LC)
  | 0, _ => none
  | _ + 1, [] => none
  | f + 1, c :: cs =>
    if c == '"' then some ([], cs)
    else if c == '\\' then
      match cs with
      | [] => none
      | e :: cs2 =>
        let esc : Option (Char × LC) :=
          if e == '"' then some ('"', cs2)
          else if e == '\\' then some ('\\', cs2)
          else if e == '/' then some ('/', cs2)
          else if e == 'b' then some ('\x08', cs2)
          else if e == 'f' then some ('\x0c', cs2)
          else if e == 'n' then some ('\n', cs2)
          else if e == 'r' then some ('\r', cs2)
          else if e == 't' then some ('\t', cs2)
          else if e == 'u' then
            match cs2 with
            | a :: b :: c2 :: d :: rest =>
              match hexVal a, hexVal b, hexVal c2, hexVal d with
              | some x, some y, some z, some w =>
                some (Char.ofNat (((x * 16 + y) * 16 + z) * 16 + w), rest)
              | _, _, _, _ => none
            | _ => none
          else none
        match esc with
        | some (ch, rest) =>
          match parseStrGo f rest with
          | some (t, r2) => some (ch :: t, r2)
          | none => none
        | none => none
    else if c.toNat < 32 then none
    else
      match parseStrGo f cs with
      | some (t, r2) => some (c :: t, r2)
      | none => none

/-- A JSON number lexeme: optional sign, integer part (`0` or nonzero-led
digits), optional fraction, optional exponent.  Returns the lexeme and the
remainder. -/
def parseNum (s : LC) : Option (LC × LC) :=
  let sign : LC × LC :=
    match s with
    | '-' :: t => (['-'], t)
    | _ => ([], s)
  match sign.2 with
  | [] => none
  | c :: _ =>
    if !c.isDigit then none
    else
      let ipart : LC × LC :=
        if c == '0' then (['0'], sign.2.tail)
        else (sign.2.takeWhile Char.isDigit, sign.2.dropWhile Char.isDigit)
      let fpart : LC × LC :=
        match ipart.2 with
        | '.' :: t =>
          let ds := t.takeWhile Char.isDigit
          if ds == [] then ([], ipart.2)
          else ('.' :: ds, t.dropWhile Char.isDigit)
        | _ => ([], ipart.2)
      let epart : LC × LC :=
        match fpart.2 with
        | e :: t =>
          if e == 'e' || e == 'E' then
            let sg : LC × LC :=
              match t with
              | pm :: tt => if pm == '+' || pm == '-' then ([pm], tt) else ([], t)
              | [] => ([], t)
            let ds := sg.2.takeWhile Char.isDigit
            if ds == [] then ([], fpart.2)
            else (e :: (sg.1 ++ ds), sg.2.dropWhile Char.isDigit)
          else ([], fpart.2)
        | [] => ([], fpart.2)
      some (sign.1 ++ ipart.1 ++ fpart.1 ++ epart.1, epart.2)

/-- Insert a key/value pair with Python `dict` semantics: an existing key
keeps its position and has its value replaced, a new key is appended. -/
def updAssoc : List (LC × Json) → LC → Json → List (LC × Json)
  | [], k, v => [(k, v)]
  | (k', v') :: t, k, v =>
    if k' == k then (k', v) :: t else (k', v') :: updAssoc t k v

/-- Mode of the recursive-descent parser: parse one value, or continue an
array / object whose already-parsed members are carried in the mode. -/
inductive PMode where
  | val : PMode
  | arrAcc (acc : List Json) : PMode
  | objAcc (acc : List (LC × Json)) : PMode

/-- Recursive-descent JSON parser, fuelled; the three mutually recursive
jobs (value, array tail, object tail) are folded into one function that is
structurally recursive on the fuel. -/
def parseF : Nat → PMode → LC → Option (Json × LC)
  | 0, _, _ => none
  | f + 1, .val, s =>
    match jsonSkipWs s with
    | [] => none
    | c :: cs =>
      if c == '"' then
        match parseStrGo (cs.length + 1) cs with
        | some (t, r) => some (Json.str t, r)
        | none => none
      else if c == 'n' then
        if cs.take 3 == ("ull".toList) then some (Json.null, cs.drop 3) else none
      else if c == 't' then
        if cs.take 3 == ("rue".toList) then some (Json.bool true, cs.drop 3) else none
      else if c == 'f' then
        if cs.take 4 == ("alse".toList) then some (Json.bool false, cs.drop 4) else none
      else if c == '[' then
        match jsonSkipWs cs with
        | ']' :: r => some (Json.arr [], r)
        | s2 => parseF f (.arrAcc []) s2
      else if c == '\x7b' then
        match jsonSkipWs cs with
        | '\x7d' :: r => some (Json.obj [], r)
        | s2 => parseF f (.objAcc []) s2
      else if c == 'N' then
        if cs.take 2 == ("aN".toList) then
          some (Json.num ("NaN".toList), cs.drop 2)
        else none
      else if c == 'I' then
        if cs.take 7 == ("nfinity".toList) then
          some (Json.num ("Infinity".toList), cs.drop 7)
        else none
      else if c == '-' then
        if cs.take 8 == ("Infinity".toList) then
          some (Json.num ("-Infinity".toList), cs.drop 8)
        else
          match parseNum (c :: cs) with
          | some (lex, r) => some (Json.num lex, r)
          | none => none
      else if c.isDigit then
        match parseNum (c :: cs) with
        | some (lex, r) => some (Json.num lex, r)
        | none => none
      else none
  | f + 1, .arrAcc acc, s =>
    match parseF f .val s with
    | none => none
    | some (v, r) =>
      match jsonSkipWs r with
      | ',' :: r2 => parseF f (.arrAcc (acc ++ [v])) r2
      | ']' :: r2 => some (Json.arr (acc ++ [v]), r2)
      | _ => none
  | f + 1, .objAcc acc, s =>
    match jsonSkipWs s with
    | '"' :: cs =>
      match parseStrGo (cs.length + 1) cs with
      | none => none
      | some (k, r) =>
        match jsonSkipWs r with
        | ':' :: r2 =>
          match parseF f .val r2 with
          | none => none
          | some (v, r3) =>
            match jsonSkipWs r3 with
            | ',' :: r4 => parseF f (.objAcc (updAssoc acc k v)) r4
            | '\x7d' :: r4 => some (Json.obj (updAssoc acc k v), r4)
            | _ => none
        | _ => none
    | _ => none

/-- Model of `json.loads`: parse one value, then require only whitespace to
remain (otherwise Python raises "Extra data"). -/
def json_loads (s : LC) : Option Json :=
  match parseF (s.length + 1) .val s with
  | some (v, r) => if jsonSkipWs r == [] then some v else none
  | none => none

/-- The eleven schema field names of `extract_invoice_json`
(`expected_fields` in `src/main.py`). -/
def expectedFields : List LC :=
  [("invoiceNumber".toList), ("poNumber".toList), ("supplierName".toList),
   ("totalAmount".toList), ("discount".toList), ("taxAmount".toList),
   ("vat".toList), ("sgst".toList), ("cgst".toList), ("igst".toList),
   ("invoiceAmount".toList)]

/-- Key membership in a parsed object, Python `field in dict`. -/
def keyMem (k : LC) (kvs : List (LC × Json)) : Bool :=
  kvs.any (fun kv => kv.1 == k)

/-- The backfill loop of `extract_invoice_json`: every schema field not
already a key is appended with value `null`. -/
def backfillFields (kvs : List (LC × Json)) : List (LC × Json) :=
  expectedFields.foldl
    (fun acc f => if keyMem f acc then acc else acc ++ [(f, Json.null)]) kvs

/-- Contiguous-substring test, Python `pat in s` for strings. -/
def isSubstring (pat : LC) : LC → Bool
  | [] => pat == []
  | c :: cs => (c :: cs).take pat.length == pat || isSubstring pat cs

/-- Python `field in parsed_json` for the possible `json.loads` results:
key membership for a dict, element equality for a list, substring test for
a string; `none` models the `TypeError` raised on the remaining types. -/
def pyFieldIn (f : LC) : Json → Option Bool
  | Json.obj kvs => some (keyMem f kvs)
  | Json.arr xs =>
    some (xs.any (fun x =>
      match x with
      | Json.str s => s == f
      | _ => false))
  | Json.str s => some (isSubstring f s)
  | _ => none

/-- The backfill step applied to an arbitrary `json.loads` result.  For a
dict the missing schema fields are appended with `null`.  For any other
value the loop either finds every field already "in" the value (and then
changes nothing) or hits a `TypeError` — from `field not in parsed_json`
on non-container values, or from the item assignment on lists and
strings — modelled as `none`. -/
def backfill : Json → Option Json
  | Json.obj kvs => some (Json.obj (backfillFields kvs))
  | j =>
    if expectedFields.all (fun f => (pyFieldIn f j).getD false) then some j
    else none

/-- Failure results of `extract_invoice_json`: a parse failure (the
`ValueError` branch, whose diagnostics carry the offending cleaned text)
and the `TypeError` escaping through the generic re-raise branch. -/
inductive LLMErr where
  | malformed (cleaned : LC)
  | typeErr
deriving DecidableEq

/-- Sanitize-parse-backfill core of `extract_invoice_json`
(`src/main.py` lines 133-163), parametric in the raw model reply. -/
def extract_invoice_json (raw : LC) : Except LLMErr Json :=
  match json_loads (sanitize raw) with
  | none => .error (.malformed (sanitize raw))
  | some j =>
    match backfill j with
    | none => .error .typeErr
    | some r => .ok r

/-- One line of the raw PaddleOCR result for a page.  `skip` is a falsy or
too-short line (dropped by the loop); `scored` is a `(text, confidence)`
pair in `line[1]`; `bare` is any other `line[1]` shape, used through
`str(line[1])`, whose rendering is carried verbatim. -/
inductive OCRLine where
  | skip : OCRLine
  | scored (text : LC) (conf : ℚ) : OCRLine
  | bare (rendered : LC) : OCRLine

/-- A PDF page: its embedded text layer (`page.get_text()`), its intrinsic
geometry, and the oracle for what `ocr.ocr` returns on this page's raster
(`none` models a falsy result or a falsy `result[0]`). -/
structure Page where
  nativeText : LC
  width : ℚ
  height : ℚ
  ocrResult : Option (List OCRLine)

/-- Zoom factor of `fitz.Matrix(2.0, 2.0)` in `extract_text_from_pdf`. -/
def ocrZoom : ℚ := 2

/-- Pixel geometry of the raster produced for a page that falls through to
recognition: the page's native dimensions scaled by `ocrZoom` on each axis. -/
def rasterSize (p : Page) : ℚ × ℚ := (p.width * ocrZoom, p.height * ocrZoom)

/-- Text Layer Probe decision (`src/main.py` line 54):
`native_text and len(native_text.strip()) > 50`. -/
def useNative (p : Page) : Bool :=
  !p.nativeText.isEmpty && decide (50 < (pyStrip p.nativeText).length)

/-- Text contributed by one recognized line: the fragment text followed by
a single space; skipped lines contribute nothing. -/
def fragChunk : OCRLine → LC
  | .skip => []
  | .scored t _ => t ++ [' ']
  | .bare r => r ++ [' ']

/-- Text appended for a page processed through OCR: the fragment chunks in
emission order (nothing when the raw result is falsy). -/
def ocrText : Option (List OCRLine) → LC
  | none => []
  | some lines => (lines.map fragChunk).flatten

/-- Per-page loop of `extract_text_from_pdf` (`src/main.py` lines 47-76):
accumulates the extracted text, and records the raster geometry of every
rasterize-and-recognize invocation. -/
def extractGo : List Page → LC → List (ℚ × ℚ) → LC × List (ℚ × ℚ)
  | [], acc, calls => (acc, calls)
  | p :: ps, acc, calls =>
    if useNative p then extractGo ps (acc ++ p.nativeText ++ ['\n']) calls
    else extractGo ps (acc ++ ocrText p.ocrResult) (calls ++ [rasterSize p])

/-- Aggregated document text: the loop's accumulated text, stripped
(`final_text = extracted_text.strip()`). -/
def extract_text_from_pdf (doc : List Page) : LC :=
  pyStrip (extractGo doc [] []).1

/-- Raster geometries of the OCR invocations made while extracting a
document's text; its length is the recognition call count. -/
def ocrCalls (doc : List Page) : List (ℚ × ℚ) :=
  (extractGo doc [] []).2

/-- Text a single page contributes to the accumulated string: the native
text followed by a newline, or the recognized fragments. -/
def pageChunk (p : Page) : LC :=
  if useNative p then p.nativeText ++ ['\n'] else ocrText p.ocrResult

/-- Failures of `process_invoice`: the insufficient-text `ValueError`
(carrying the length it reports) or a failure of the extraction step. -/
inductive PErr where
  | insufficient (got : Nat)
  | llm (e : LLMErr)

/-- Pipeline `process_invoice` (`src/main.py` lines 167-187), parametric
in the language model's reply function.  The second component counts the
language-model invocations performed. -/
def process_invoice (doc : List Page) (model : LC → LC) :
    Except PErr Json × Nat :=
  if (extract_text_from_pdf doc).isEmpty || (extract_text_from_pdf doc).length < 10 then
    (.error (.insufficient (extract_text_from_pdf doc).length), 0)
  else
    match extract_invoice_json (model (extract_text_from_pdf doc)) with
    | .ok j => (.ok j, 1)
    | .error e => (.error (.llm e), 1)

/-- Discriminator for the insufficient-text failure. -/
def isInsufficientErr : Except PErr Json → Bool
  | .error (.insufficient _) => true
  | _ => false

/-- ASCII lowering, the relevant fragment of Python `str.lower()`. -/
def asciiLower (c : Char) : Char :=
  if 'A' ≤ c ∧ c ≤ 'Z' then Char.ofNat (c.toNat + 32) else c

/-- The suffix tested by the upload route. -/
def pdfSuffix : LC := ".pdf".toList

/-- The extension test of the upload route:
`file.filename.lower().endswith('.pdf')`. -/
def endsWithPdfLower (fn : LC) : Bool :=
  pdfSuffix.isSuffixOf (fn.map asciiLower)

/-- Outcome of the upload route's validation prologue: an immediate HTTP
400 response with its message, or entry into the pipeline. -/
inductive UploadOutcome where
  | err400 (msg : LC)
  | pipelineRun (filename : LC)
deriving DecidableEq

/-- Message of the missing-file rejection. -/
def noFileMsg : LC := "No file uploaded".toList

/-- Message of the empty-filename rejection. -/
def noNameMsg : LC := "No file selected".toList

/-- Message of the extension rejection. -/
def onlyPdfMsg : LC := "Only PDF files are supported".toList

/-- Validation prologue of the `/upload` route (`src/main.py`
lines 196-212). -/
def upload (hasFile : Bool) (filename : LC) : UploadOutcome :=
  if !hasFile then .err400 noFileMsg
  else if filename = [] then .err400 noNameMsg
  else if !(endsWithPdfLower filename) then .err400 onlyPdfMsg
  else .pipelineRun filename

/-- Discriminator for 400 rejections. -/
def isErr400 : UploadOutcome → Bool
  | .err400 _ => true
  | .pipelineRun _ => false

/-- Raw reply with an extra key beyond the schema. -/
def c1raw : LC := "\x7b\"invoiceNumber\":\"1\",\"foo\":\"2\"\x7d".toList

/-- Test for a successfully returned record carrying a key outside the
eleven schema fields. -/
def hasNonSchemaKey : Except LLMErr Json → Bool
  | .ok (Json.obj kvs) => kvs.any (fun kv => !expectedFields.contains kv.1)
  | _ => false

/-- Raw reply with a single schema key, used to instantiate the backfill
theorem. -/
def c1wraw : LC := "\x7b\"vat\":\"9\"\x7d".toList

/-- The record produced for `c1wraw`: the parsed key first, then the ten
missing schema fields backfilled with null in schema order. -/
def c1wkvs : List (LC × Json) :=
  (("vat".toList), Json.str ("9".toList)) ::
    (expectedFields.filter (fun f => !(f == ("vat".toList)))).map
      (fun f => (f, Json.null))

/-- The fenced raw reply of the sanitizer round-trip test. -/
def c2raw : LC := "```json\n\x7b\"invoiceNumber\":\"123\"\x7d\n```".toList

/-- The record expected for `c2raw`: `invoiceNumber` bound to `"123"`,
every other schema field null. -/
def c2kvs : List (LC × Json) :=
  (("invoiceNumber".toList), Json.str ("123".toList)) ::
    (expectedFields.drop 1).map (fun f => (f, Json.null))

/-- A page holding native text of exactly 50 non-whitespace characters. -/
def c5page : Page :=
  { nativeText := List.replicate 50 'a', width := 1, height := 1,
    ocrResult := none }

/-- A page holding native text of 51 non-whitespace characters. -/
def c5wpage : Page :=
  { nativeText := List.replicate 51 'b', width := 1, height := 1,
    ocrResult := none }

/-- A page with no text layer, of geometry 100 × 40. -/
def c6page : Page :=
  { nativeText := [], width := 100, height := 40, ocrResult := none }

/-- A page with a one-character text layer that falls through to OCR,
whose recognition emits one fragment. -/
def c7page1 : Page :=
  { nativeText := "x".toList, width := 1, height := 1,
    ocrResult := some [OCRLine.scored ("hello".toList) 1] }

/-- A page whose 51-character text layer is used natively. -/
def c7page2 : Page :=
  { nativeText := List.replicate 51 'b', width := 1, height := 1,
    ocrResult := none }

/-- A page whose native text layer exceeds the probe threshold. -/
def c4page : Page :=
  { nativeText := List.replicate 51 'a', width := 1, height := 1,
    ocrResult := none }

lemma useNative_iff (p : Page) :
    useNative p = true ↔ 50 < (pyStrip p.nativeText).length := by
  unfold useNative
  constructor
  · intro h
    simp only [Bool.and_eq_true, decide_eq_true_eq] at h
    exact h.2
  · intro h
    simp only [Bool.and_eq_true, decide_eq_true_eq]
    refine ⟨?_, h⟩
    cases hn : p.nativeText with
    | nil => rw [hn] at h; simp [pyStrip] at h
    | cons a l => simp [List.isEmpty]

lemma extractGo_fst (doc : List Page) :
    ∀ acc calls, (extractGo doc acc calls).1 = acc ++ (doc.map pageChunk).flatten := by
  induction doc with
  | nil => intro acc calls; simp [extractGo]
  | cons p ps ih =>
    intro acc calls
    cases h : useNative p with
    | true => simp [extractGo, h, pageChunk, ih, List.append_assoc]
    | false => simp [extractGo, h, pageChunk, ih, List.append_assoc]

lemma extractGo_snd (doc : List Page) :
    ∀ acc calls,
      (extractGo doc acc calls).2 =
        calls ++ (doc.filter (fun p => !useNative p)).map rasterSize := by
  induction doc with
  | nil => intro acc calls; simp [extractGo]
  | cons p ps ih =>
    intro acc calls
    cases h : useNative p with
    | true => simp [extractGo, h, ih, List.filter_cons]
    | false => simp [extractGo, h, ih, List.filter_cons, List.append_assoc]

lemma keyMem_append (k : LC) (a b : List (LC × Json)) :
    keyMem k (a ++ b) = (keyMem k a || keyMem k b) := by
  simp [keyMem, List.any_append]

lemma foldl_backfill (fields : List LC) :
    ∀ kvs, fields.Nodup →
      fields.foldl
          (fun acc f => if keyMem f acc then acc else acc ++ [(f, Json.null)]) kvs
        = kvs ++ (fields.filter (fun f => !keyMem f kvs)).map (fun f => (f, Json.null)) := by
  induction fields with
  | nil => intro kvs _; simp
  | cons f fs ih =>
    intro kvs hnd
    rw [List.nodup_cons] at hnd
    obtain ⟨hf, hnd'⟩ := hnd
    simp only [List.foldl_cons, List.filter_cons]
    by_cases hk : keyMem f kvs = true
    · rw [if_pos hk, ih kvs hnd']
      simp [hk]
    · have hk' : keyMem f kvs = false := by
        cases hkk : keyMem f kvs with
        | true => exact absurd hkk hk
        | false => rfl
      rw [if_neg hk, ih (kvs ++ [(f, Json.null)]) hnd']
      have hcong :
          fs.filter (fun g => !keyMem g (kvs ++ [(f, Json.null)]))
            = fs.filter (fun g => !keyMem g kvs) := by
        apply List.filter_congr
        intro g hg
        rw [keyMem_append]
        have hne : (f == g) = false := by
          rw [beq_eq_false_iff_ne]
          intro hEq
          exact hf (hEq ▸ hg)
        simp [keyMem, hne]
      rw [hcong]
      simp [hk', List.append_assoc]

lemma backfillFields_eq (kvs : List (LC × Json)) :
    backfillFields kvs =
      kvs ++ (expectedFields.filter (fun f => !keyMem f kvs)).map
        (fun f => (f, Json.null)) := by
  apply foldl_backfill
  decide

lemma backfill_obj (j : Json) (kvs : List (LC × Json))
    (h : backfill j = some (Json.obj kvs)) :
    ∃ kvs0, j = Json.obj kvs0 ∧ kvs = backfillFields kvs0 := by
  cases j with
  | obj kvs0 =>
    refine ⟨kvs0, rfl, ?_⟩
    simp only [backfill, Option.some.injEq, Json.obj.injEq] at h
    exact h.symm
  | null =>
    simp only [backfill] at h
    split at h <;> simp_all
  | bool b =>
    simp only [backfill] at h
    split at h <;> simp_all
  | num lex =>
    simp only [backfill] at h
    split at h <;> simp_all
  | str s =>
    simp only [backfill] at h
    split at h <;> simp_all
  | arr xs =>
    simp only [backfill] at h
    split at h <;> simp_all

lemma bool_eq_false_of_not_true {b : Bool} (h : ¬ b = true) : b = false := by
  cases b with
  | true => exact absurd rfl h
  | false => rfl

example : pyStrip (" ab ".toList) = "ab".toList := by decide

example : json_loads ("[]".toList) = some (Json.arr []) := rfl

example :
    json_loads ("\x7b\"a\":\"1\"\x7d".toList) =
      some (Json.obj [(("a".toList), Json.str ("1".toList))]) := rfl

example :
    sanitize ("```json\n\x7b\"a\":1\x7d\n```".toList) = "\x7b\"a\":1\x7d".toList := rfl

example :
    extract_invoice_json ("\x7b\"a\":\"1\"\x7d".toList) =
      .ok (Json.obj ((("a".toList), Json.str ("1".toList)) ::
        expectedFields.map (fun f => (f, Json.null)))) := rfl

/-- Claim C1 counterexample: on the raw reply
`{"invoiceNumber":"1","foo":"2"}` the code returns a record that keeps the
non-schema key `foo`, so the returned key set is not exactly the eleven
schema field names. -/
theorem c1_counterexample :
    hasNonSchemaKey (extract_invoice_json c1raw) = true := rfl

/-- Claim C1 (amended): whenever `extract_invoice_json` returns a record,
every schema field is a key of the record (missing ones having been
backfilled with null, appended in schema order), but keys of the parsed
object that lie outside the schema are retained: the record is exactly the
parsed object followed by the missing schema fields. -/
theorem c1_schema_backfill (raw : LC) (kvs : List (LC × Json))
    (h : extract_invoice_json raw = .ok (Json.obj kvs)) :
    (∀ f ∈ expectedFields, keyMem f kvs = true) ∧
      ∃ kvs0, json_loads (sanitize raw) = some (Json.obj kvs0) ∧
        kvs = kvs0 ++ (expectedFields.filter (fun f => !keyMem f kvs0)).map
          (fun f => (f, Json.null)) := by
  unfold extract_invoice_json at h
  split at h
  next hj => exact absurd h (by simp)
  next j hj =>
    split at h
    next hb => exact absurd h (by simp)
    next r hb =>
      have hr : r = Json.obj kvs := by injection h
      rw [hr] at hb
      obtain ⟨kvs0, hj0, hkvs⟩ := backfill_obj j kvs hb
      rw [hj0] at hj
      rw [backfillFields_eq] at hkvs
      refine ⟨?_, kvs0, hj, hkvs⟩
      intro f hfmem
      rw [hkvs, keyMem_append]
      by_cases hk : keyMem f kvs0 = true
      · simp [hk]
      · have hk' := bool_eq_false_of_not_true hk
        rw [hk', Bool.false_or]
        simp only [keyMem, List.any_eq_true]
        have hmemf : f ∈ expectedFields.filter (fun g => !keyMem g kvs0) :=
          List.mem_filter.mpr ⟨hfmem, by simp [hk']⟩
        have hmemp : (f, Json.null) ∈
            (expectedFields.filter (fun g => !keyMem g kvs0)).map
              (fun g => (g, Json.null)) :=
          List.mem_map_of_mem (fun g => (g, Json.null)) hmemf
        exact ⟨(f, Json.null), hmemp, by simp⟩

/-- Claim C1 witness: instantiating the backfill theorem on the concrete
reply `{"vat":"9"}` shows the schema field `igst` present in the result. -/
theorem c1_witness : keyMem ("igst".toList) c1wkvs = true :=
  (c1_schema_backfill c1wraw c1wkvs rfl).1 ("igst".toList) (by decide)

/-- Claim C2: on the fenced raw reply ```` ```json\n{"invoiceNumber":"123"}\n``` ````
the sanitize-parse-backfill step returns the record binding
`invoiceNumber` to the string `"123"` and each of the other ten schema
fields to null. -/
theorem c2_sanitizer_roundtrip :
    extract_invoice_json c2raw = .ok (Json.obj c2kvs) := rfl

/-- Claim C3: `process_invoice` fails with the insufficient-text error
exactly when the stripped aggregated text is shorter than 10 characters,
and in that case the language model is never invoked (the invocation
counter stays 0). -/
theorem c3_insufficient_gate (doc : List Page) (model : LC → LC) :
    (isInsufficientErr (process_invoice doc model).1 = true
        ↔ (extract_text_from_pdf doc).length < 10)
      ∧ ((extract_text_from_pdf doc).length < 10 →
          (process_invoice doc model).2 = 0) := by
  have hcond :
      ((extract_text_from_pdf doc).isEmpty
          || decide ((extract_text_from_pdf doc).length < 10))
        = decide ((extract_text_from_pdf doc).length < 10) := by
    cases hN : extract_text_from_pdf doc with
    | nil => decide
    | cons a l => simp
  unfold process_invoice
  rw [hcond]
  by_cases hlt : (extract_text_from_pdf doc).length < 10
  · rw [if_pos (by simpa using hlt)]
    simp [isInsufficientErr, hlt]
  · rw [if_neg (by simpa using hlt)]
    cases hE : extract_invoice_json (model (extract_text_from_pdf doc)) with
    | ok j => simp [isInsufficientErr, hlt]
    | error e => simp [isInsufficientErr, hlt]

/-- Claim C3 witness: on the empty document the aggregated text is empty,
the pipeline reports the insufficient-text failure, and the model call
count is zero. -/
theorem c3_witness :
    (process_invoice [] (fun _ => [])).2 = 0 :=
  (c3_insufficient_gate [] (fun _ => [])).2 (by decide)

/-- Claim C4: the Text Layer Probe decides for native text exactly when
the stripped embedded text is strictly longer than 50 characters; a native
page contributes its text verbatim (followed by the page newline) with no
recognition call, and any other page is rasterized and recognized. -/
theorem c4_text_layer_probe (p : Page) :
    (useNative p = true ↔ 50 < (pyStrip p.nativeText).length)
      ∧ (useNative p = true →
          (extractGo [p] [] []).1 = p.nativeText ++ ['\n']
            ∧ (extractGo [p] [] []).2 = [])
      ∧ (useNative p = false →
          (extractGo [p] [] []).1 = ocrText p.ocrResult
            ∧ (extractGo [p] [] []).2 = [rasterSize p]) := by
  refine ⟨useNative_iff p, ?_, ?_⟩
  · intro h
    constructor <;> simp [extractGo, h]
  · intro h
    constructor <;> simp [extractGo, h]

/-- Claim C4 witness: a page of 51 non-whitespace characters is used
natively and appended verbatim with the trailing newline. -/
theorem c4_witness :
    (extractGo [c4page] [] []).1 = c4page.nativeText ++ ['\n'] :=
  ((c4_text_layer_probe c4page).2.1 (by decide)).1

/-- Claim C5 counterexample: a page whose native text has exactly 50
characters (none of them whitespace) satisfies the claim's "at least 50
characters" premise, yet the probe rejects it (the threshold is strict)
and recognition is invoked once. -/
theorem c5_counterexample :
    50 ≤ c5page.nativeText.length ∧ (ocrCalls [c5page]).length = 1 :=
  ⟨by decide, rfl⟩

/-- Claim C5 (amended): if every page's native text has stripped length
strictly greater than 50 characters, the Recognition Engine is never
invoked. -/
theorem c5_no_ocr (doc : List Page)
    (h : ∀ p ∈ doc, 50 < (pyStrip p.nativeText).length) :
    ocrCalls doc = [] := by
  unfold ocrCalls
  rw [extractGo_snd]
  have hfilter : doc.filter (fun p => !useNative p) = [] := by
    rw [List.filter_eq_nil_iff]
    intro p hp
    have hu := (useNative_iff p).mpr (h p hp)
    simp [hu]
  rw [hfilter]
  simp

/-- Claim C5 witness: a one-page document with 51 characters of native
text triggers no recognition call. -/
theorem c5_no_ocr_witness : ocrCalls [c5wpage] = [] :=
  c5_no_ocr [c5wpage] (List.forall_mem_singleton.mpr (by decide))

/-- Claim C6 counterexample: the rasterization matrix is a 2.0 zoom, so a
100 × 40 page is rasterized to 200 × 80, below the claimed factor of at
least 3.0 per axis. -/
theorem c6_counterexample :
    rasterSize c6page = (200, 80)
      ∧ ¬ (c6page.width * 3 ≤ (rasterSize c6page).1) := by
  constructor
  · norm_num [rasterSize, ocrZoom, c6page]
  · norm_num [rasterSize, ocrZoom, c6page]

/-- Claim C6 (amended): every page that falls through to recognition is
rasterized at scale factor exactly 2.0 on each axis, in page order. -/
theorem c6_raster_scale (doc : List Page) :
    ocrCalls doc =
      (doc.filter (fun p => !useNative p)).map
        (fun p => (p.width * 2, p.height * 2)) := by
  unfold ocrCalls
  rw [extractGo_snd]
  simp [rasterSize, ocrZoom]

/-- Claim C7 counterexample: a two-page document whose first page goes
through recognition and whose second page is native produces aggregated
text containing no newline at all — the recognition page's boundary is a
space, and the final strip removes the native page's trailing newline. -/
theorem c7_counterexample :
    extract_text_from_pdf [c7page1, c7page2]
        = "hello ".toList ++ List.replicate 51 'b'
      ∧ '\n' ∉ extract_text_from_pdf [c7page1, c7page2] :=
  ⟨rfl, by decide⟩

/-- Claim C7 (amended): the aggregated text is the stripped in-order
concatenation of per-page chunks, where a native page contributes its text
followed by a newline and a recognized page contributes its fragments each
followed by a single space and no newline; page order is preserved, but
boundaries after recognized pages are not newline-marked. -/
theorem c7_aggregation_order (doc : List Page) :
    extract_text_from_pdf doc = pyStrip ((doc.map pageChunk).flatten) := by
  unfold extract_text_from_pdf
  rw [extractGo_fst]
  simp

/-- Claim C8: whenever the sanitized reply fails to parse, the extraction
step fails with the distinct malformed-output error whose diagnostics
carry the offending cleaned text, and no record is returned. -/
theorem c8_parse_failure (raw : LC)
    (h : json_loads (sanitize raw) = none) :
    extract_invoice_json raw = .error (.malformed (sanitize raw))
      ∧ ∀ j, extract_invoice_json raw ≠ .ok j := by
  have hmain : extract_invoice_json raw = .error (.malformed (sanitize raw)) := by
    unfold extract_invoice_json
    rw [h]
  refine ⟨hmain, ?_⟩
  intro j hj
  rw [hmain] at hj
  exact absurd hj (by simp)

/-- Claim C8 witness: the unparsable reply `hello` produces the
malformed-output failure. -/
theorem c8_witness :
    extract_invoice_json ("hello".toList)
      = .error (.malformed (sanitize ("hello".toList))) :=
  (c8_parse_failure ("hello".toList) rfl).1

/-- Claim C9: a present upload whose filename ends in `.pdf` under any
letter casing reaches the pipeline (so it is not rejected by the
extension check), while any filename whose lowering does not end in
`.pdf` is answered with a 400 rejection before the pipeline runs. -/
theorem c9_pdf_extension_check :
    (∀ stem suf : LC, suf.map asciiLower = pdfSuffix →
        upload true (stem ++ suf) = .pipelineRun (stem ++ suf))
      ∧ (∀ fn : LC, endsWithPdfLower fn = false →
          isErr400 (upload true fn) = true) := by
  constructor
  · intro stem suf hsuf
    have hne : stem ++ suf ≠ [] := by
      intro hnil
      have hsnil : suf = [] := (List.append_eq_nil.mp hnil).2
      rw [hsnil] at hsuf
      simp [pdfSuffix] at hsuf
    have hends : endsWithPdfLower (stem ++ suf) = true := by
      unfold endsWithPdfLower
      rw [List.map_append, hsuf]
      exact List.isSuffixOf_iff_suffix.mpr (List.suffix_append _ _)
    simp [upload, hne, hends]
  · intro fn h
    by_cases hnil : fn = []
    · simp [upload, hnil, isErr400]
    · simp [upload, hnil, h, isErr400]

/-- Claim C9 witness: the mixed-case filename `a.PdF` reaches the
pipeline, and `a.txt` is rejected with a 400. -/
theorem c9_witness :
    upload true (("a".toList) ++ (".PdF".toList))
        = .pipelineRun (("a".toList) ++ (".PdF".toList))
      ∧ isErr400 (upload true ("a.txt".toList)) = true :=
  ⟨c9_pdf_extension_check.1 ("a".toList) (".PdF".toList) (by decide),
   c9_pdf_extension_check.2 ("a.txt".toList) (by decide)⟩

/-- Claim C10: the raw reply `[]` sanitizes to valid JSON that is not an
object; extraction still fails, but with the backfill-step type error,
not the malformed-output parse error. -/
theorem c10_nonobject_backfill :
    extract_invoice_json ("[]".toList) = .error .typeErr
      ∧ json_loads (sanitize ("[]".toList)) = some (Json.arr []) :=
  ⟨rfl, rfl⟩

end Invoice
